import Mathlib

/-!
Verification development for the LossLens repository.

We give a shallow embedding, in Lean 4, of the pure data transformations of
the Python sources (`app.py`, `utils/categorize_gpt.py`, `utils/charting.py`,
`utils/regret_predictor.py`, `utils/predict_regret.py`,
`utils/peer_benchmarks.py`).  Pandas DataFrames are modelled as Lean lists of
row structures (or header/column tables where column names matter); a NaN
numeric cell is `Option.none`; Python exceptions and `st.stop()` are modelled
by `Except`.  External effects (Streamlit rendering, the OpenAI HTTP call,
SMTP) are modelled by explicit environment parameters carrying their
outcomes.
-/

namespace LossLens

/-! ### Generic numeric helpers (pandas semantics) -/

/-- A numeric pandas cell: `none` models NaN (including coercion failures of
`pd.to_numeric(errors="coerce")`). -/
abbrev NCell := Option ℚ

/-- Truncation toward zero, as Python `int()` / pandas `astype(int)`. -/
def truncInt (q : ℚ) : ℤ := if 0 ≤ q then ⌊q⌋ else ⌈q⌉

/-- Round half to even to the nearest integer, the tie-breaking used by
Python `round` and pandas `Series.round`. -/
def roundHE (q : ℚ) : ℤ :=
  let f := ⌊q⌋
  let r := q - f
  if r < 1/2 then f
  else if 1/2 < r then f + 1
  else if f % 2 = 0 then f else f + 1

/-- Round half to even at two decimal places (`round(x, 2)` / `.round(2)`). -/
def round2 (q : ℚ) : ℚ := (roundHE (q * 100) : ℚ) / 100

/-- NaN-skipping mean, as pandas `Series.mean()` (default `skipna=True`);
the mean of an empty or all-NaN series is NaN. -/
def nmean (l : List NCell) : NCell :=
  let v := l.filterMap id
  if v.length = 0 then none else some ((v.sum) / (v.length : ℚ))

/-- NaN-skipping sum, as pandas `Series.sum()` (empty/all-NaN sums to 0). -/
def nsum (l : List NCell) : ℚ := (l.filterMap id).sum

/-- Mean of a plain rational list (0 on empty; used only on non-empty groups). -/
def qmean (l : List ℚ) : ℚ := if l.length = 0 then 0 else l.sum / (l.length : ℚ)

/-- NaN-skipping median, as pandas `Series.median()`: sort the non-NaN
values, take the middle one, or the average of the two middle ones. -/
def nmedian (l : List NCell) : NCell :=
  let v := List.insertionSort (fun a b : ℚ => a ≤ b) (l.filterMap id)
  let n := v.length
  if n = 0 then none
  else if n % 2 = 1 then some (v.getD (n / 2) 0)
  else some ((v.getD (n / 2 - 1) 0 + v.getD (n / 2) 0) / 2)

/-- Multiplication with NaN propagation: `a * x` where `a` may be NaN. -/
def scaleAmt (a : NCell) (x : ℚ) : NCell := a.map (fun y => y * x)

/-! ### Sort-key relations (pandas `sort_values(..., ascending=False)`)

`sort_values` in descending order places NaN keys last (`na_position="last"`),
so the induced total preorder on keys puts `none` at the bottom. -/

/-- Descending key order on optional rationals: `descOpt a b` holds when row
key `a` may come before row key `b` in a descending sort with NaN last. -/
def descOpt (a b : NCell) : Prop :=
  match a, b with
  | _, none => True
  | none, some _ => False
  | some x, some y => y ≤ x

instance decDescOpt : DecidableRel descOpt := fun a b =>
  match a, b with
  | some _, none => isTrue trivial
  | none, none => isTrue trivial
  | none, some _ => isFalse (fun h => h)
  | some x, some y => inferInstanceAs (Decidable (y ≤ x))

theorem descOpt_total (a b : NCell) : descOpt a b ∨ descOpt b a := by
  rcases a with _ | x
  · rcases b with _ | y
    · exact Or.inl trivial
    · exact Or.inr trivial
  · rcases b with _ | y
    · exact Or.inl trivial
    · rcases le_total y x with h | h
      · exact Or.inl h
      · exact Or.inr h

theorem descOpt_trans (a b c : NCell) : descOpt a b → descOpt b c → descOpt a c := by
  intro h1 h2
  rcases a with _ | x
  · rcases b with _ | y
    · rcases c with _ | z
      · trivial
      · exact h2
    · exact h1.elim
  · rcases c with _ | z
    · trivial
    · rcases b with _ | y
      · exact h2.elim
      · exact le_trans h2 h1

/-- Descending order on rows keyed by an optional-rational field. -/
def byPred {α : Type} (k : α → NCell) (r s : α) : Prop := descOpt (k r) (k s)

instance byPredDec {α : Type} (k : α → NCell) : DecidableRel (byPred k) :=
  fun r s => decDescOpt (k r) (k s)

instance byPredTotal {α : Type} (k : α → NCell) : IsTotal α (byPred k) :=
  ⟨fun r s => descOpt_total (k r) (k s)⟩

instance byPredTrans {α : Type} (k : α → NCell) : IsTrans α (byPred k) :=
  ⟨fun _ _ _ h1 h2 => descOpt_trans _ _ _ h1 h2⟩

/-- Descending order on rows keyed by a plain rational field. -/
def byQDesc {α : Type} (k : α → ℚ) (r s : α) : Prop := k s ≤ k r

instance byQDescDec {α : Type} (k : α → ℚ) : DecidableRel (byQDesc k) :=
  fun r s => inferInstanceAs (Decidable (k s ≤ k r))

instance byQDescTotal {α : Type} (k : α → ℚ) : IsTotal α (byQDesc k) :=
  ⟨fun r s => le_total (k s) (k r)⟩

instance byQDescTrans {α : Type} (k : α → ℚ) : IsTrans α (byQDesc k) :=
  ⟨fun _ _ _ h1 h2 => le_trans h2 h1⟩

/-! ### utils/categorize_gpt.py -/

/-- Python `str.lower()` (ASCII case folding, per character). -/
def pyLower (s : String) : String := String.mk (s.data.map Char.toLower)

/-- Python `str.strip()`: drop whitespace from both ends. -/
def pyStrip (s : String) : String :=
  String.mk (((s.data.dropWhile Char.isWhitespace).reverse.dropWhile Char.isWhitespace).reverse)

/-- Leading-segment test on character lists. -/
def startsWithB : List Char → List Char → Bool
  | [], _ => true
  | _ :: _, [] => false
  | a :: as, b :: bs => a = b && startsWithB as bs

/-- Contiguous-substring test on character lists. -/
def hasSegB (k : List Char) : List Char → Bool
  | [] => startsWithB k []
  | c :: t => startsWithB k (c :: t) || hasSegB k t

/-- Python `k in m`: `k` is a contiguous substring of `m`. -/
def strIn (k m : String) : Bool := hasSegB k.toList m.toList

/-- The rule-based fallback mapping `FALLBACK_KEYWORDS`, in source dict
insertion order. -/
def FALLBACK_KEYWORDS : List (String × List String) :=
  [ ("Groceries", ["whole foods", "grocery", "safeway", "walmart", "aldi", "kroger"]),
    ("Dining", ["starbucks", "restaurant", "cafe", "diner", "pizza", "burger", "taco"]),
    ("Transport", ["uber", "lyft", "metra", "train", "bus", "shell", "gas", "exxon"]),
    ("Shopping", ["amazon", "target", "best buy", "shop"]),
    ("Entertainment", ["netflix", "hulu", "movie", "cinema", "spotify"]),
    ("Health", ["pharmacy", "walgreens", "cvs", "doctor", "clinic"]),
    ("Travel", ["airlines", "delta", "american airlines", "hotel", "hilton"]),
    ("Utilities", ["electric", "water", "comcast", "verizon", "att"]) ]

/-- The nested `for cat, keys ... for k in keys ... return cat` loop of
`heuristic_category`, with its early return. -/
def catLoop (m : String) : List (String × List String) → String
  | [] => "Other"
  | (cat, keys) :: rest => if keys.any (fun k => strIn k m) then cat else catLoop m rest

/-- `heuristic_category`: lower-case the merchant and scan the keyword table. -/
def heuristic_category (merchant : String) : String :=
  catLoop (pyLower merchant) FALLBACK_KEYWORDS

/-- A transaction row as seen by `categorize_transactions`: the `Merchant`
cell (possibly NaN), the `Category` cell, and the remaining columns bundled
opaquely in `rest` (the function never touches them). -/
structure CRow (α : Type) where
  merchant : Option String
  category : String
  rest : α
deriving DecidableEq

/-- Environment of `categorize_transactions`: the `use_gpt` flag, whether the
`openai` import succeeded, whether `OPENAI_API_KEY` is set, and the outcome of
the chat-completion call together with its regex/JSON parsing and mapping
construction (`.error` models any exception in the `try` block). -/
structure GptEnv where
  useGpt : Bool
  openaiAvailable : Bool
  apiKeyPresent : Bool
  apiResult : Except Unit (List (String × String))

/-- The guard `use_gpt and openai is not None and os.getenv("OPENAI_API_KEY")`. -/
def gptRoute (env : GptEnv) : Bool :=
  env.useGpt && env.openaiAvailable && env.apiKeyPresent

/-- Python dict lookup with default; built from an item list where later
duplicate keys overwrite earlier ones. -/
def dictGet (mapping : List (String × String)) (k dflt : String) : String :=
  match mapping.reverse.lookup k with
  | some v => v
  | none => dflt

/-- `categorize_transactions`: operates on a copy of the input frame and
fills the `Category` column, via the GPT mapping when the GPT route is taken
and succeeds, and via `heuristic_category` otherwise.  In the GPT route the
merchant key is `str(m)` (NaN prints as `"nan"`); in the fallback route it is
`fillna("")`. -/
def categorize_transactions {α : Type} (env : GptEnv) (df : List (CRow α)) :
    List (CRow α) :=
  if gptRoute env then
    match env.apiResult with
    | .ok items =>
        let mapping := items.map (fun p => (pyStrip p.1, pyStrip p.2))
        df.map (fun r =>
          let key := r.merchant.getD "nan"
          { r with category := dictGet mapping key (heuristic_category key) })
    | .error _ =>
        df.map (fun r => { r with category := heuristic_category (r.merchant.getD "") })
  else
    df.map (fun r => { r with category := heuristic_category (r.merchant.getD "") })

/-- First-match characterization of the keyword loop: either some table entry
matches, the result is the first matching entry's category and no earlier
entry matches; or no entry matches and the result is "Other". -/
theorem catLoop_first_match (m : String) (l : List (String × List String)) :
    (∃ pre cat keys post, l = pre ++ (cat, keys) :: post ∧
        catLoop m l = cat ∧ keys.any (fun k => strIn k m) = true ∧
        ∀ q ∈ pre, q.2.any (fun k => strIn k m) = false) ∨
    (catLoop m l = "Other" ∧ ∀ q ∈ l, q.2.any (fun k => strIn k m) = false) := by
  induction l with
  | nil => exact Or.inr ⟨rfl, by simp⟩
  | cons hd tl ih =>
    obtain ⟨cat, keys⟩ := hd
    by_cases hmatch : keys.any (fun k => strIn k m) = true
    · refine Or.inl ⟨[], cat, keys, tl, rfl, ?_, hmatch, by simp⟩
      simp [catLoop, hmatch]
    · have hloop : catLoop m ((cat, keys) :: tl) = catLoop m tl := by
        simp [catLoop, hmatch]
      rcases ih with ⟨pre, cat2, keys2, post, hdec, hval, hm2, hpre⟩ | ⟨hval, hnone⟩
      · refine Or.inl ⟨(cat, keys) :: pre, cat2, keys2, post,
          by rw [hdec, List.cons_append], ?_, hm2, ?_⟩
        · rw [hloop, hval]
        · intro q hq
          rcases List.mem_cons.mp hq with hq | hq
          · subst hq
            exact Bool.eq_false_iff.mpr hmatch
          · exact hpre q hq
      · refine Or.inr ⟨by rw [hloop, hval], ?_⟩
        intro q hq
        rcases List.mem_cons.mp hq with hq | hq
        · subst hq
          exact Bool.eq_false_iff.mpr hmatch
        · exact hnone q hq

/-- C10: `categorize_transactions` does not mutate its argument: it operates
on a copy (`df.copy()`, modelled by the function being a pure map of the
input), and in the returned frame the row count, the row order, and every
column other than `Category` (here: the `Merchant` cell and the opaque rest
of the row) are equal to the input's. -/
theorem c10_categorize_frame {α : Type} (env : GptEnv) (df : List (CRow α)) :
    (categorize_transactions env df).length = df.length ∧
    (categorize_transactions env df).map (fun r => (r.merchant, r.rest))
      = df.map (fun r => (r.merchant, r.rest)) := by
  have key : ∀ (f : CRow α → String),
      (df.map (fun r => { r with category := f r })).map (fun r => (r.merchant, r.rest))
        = df.map (fun r => (r.merchant, r.rest)) := by
    intro f
    rw [List.map_map]
    rfl
  have keylen : ∀ (f : CRow α → String),
      (df.map (fun r => { r with category := f r })).length = df.length :=
    fun _ => List.length_map _ _
  unfold categorize_transactions
  by_cases hg : gptRoute env = true
  · rw [if_pos hg]
    cases henv : env.apiResult with
    | error e => exact ⟨keylen _, key _⟩
    | ok items => exact ⟨keylen _, key _⟩
  · rw [if_neg hg]
    exact ⟨keylen _, key _⟩

/-- C4: whenever GPT use is disabled, the `openai` module is unavailable, no
API key is set, or the API call / JSON parsing raises, every row is assigned
the keyword-matching category: the first category of `FALLBACK_KEYWORDS` (in
the fixed order Groceries, Dining, Transport, Shopping, Entertainment,
Health, Travel, Utilities) one of whose keywords is a substring of the
lower-cased merchant name, and "Other" when no keyword matches. -/
theorem c4_fallback_keyword_categorization {α : Type} (env : GptEnv) (df : List (CRow α))
    (hfb : env.useGpt = false ∨ env.openaiAvailable = false ∨ env.apiKeyPresent = false ∨
      ∃ e, env.apiResult = .error e) :
    (categorize_transactions env df)
        = df.map (fun r => { r with category := heuristic_category (r.merchant.getD "") }) ∧
    ∀ m : String,
      (∃ pre cat keys post, FALLBACK_KEYWORDS = pre ++ (cat, keys) :: post ∧
          heuristic_category m = cat ∧ (keys.any (fun k => strIn k (pyLower m))) = true ∧
          ∀ q ∈ pre, (q.2.any (fun k => strIn k (pyLower m))) = false) ∨
      (heuristic_category m = "Other" ∧
        ∀ q ∈ FALLBACK_KEYWORDS, (q.2.any (fun k => strIn k (pyLower m))) = false) := by
  constructor
  · by_cases hg : gptRoute env = true
    · rcases hfb with h | h | h | ⟨e, h⟩
      · rw [gptRoute, h] at hg
        simp at hg
      · rw [gptRoute, h] at hg
        simp at hg
      · rw [gptRoute, h] at hg
        simp at hg
      · unfold categorize_transactions
        rw [if_pos hg, h]
    · unfold categorize_transactions
      rw [if_neg hg]
  · intro m
    exact catLoop_first_match (pyLower m) FALLBACK_KEYWORDS

/-- Witness for C4 at a concrete environment and frame: with GPT disabled, a
Starbucks merchant is categorized as Dining by the keyword fallback. -/
theorem c4_witness :
    categorize_transactions ⟨false, true, true, .ok []⟩
        [(⟨some "Starbucks Downtown", "", 0⟩ : CRow ℕ)]
      = [⟨some "Starbucks Downtown", "Dining", 0⟩] := by
  have h := (c4_fallback_keyword_categorization ⟨false, true, true, .ok []⟩
      [(⟨some "Starbucks Downtown", "", 0⟩ : CRow ℕ)] (Or.inl rfl)).1
  rw [h]
  rfl

/-! ### utils/charting.py -/

/-- A row as consumed by the charting helpers: the `Category` cell, the
`Regret` cell (possibly NaN), and the remaining columns bundled opaquely. -/
structure ChRow (α : Type) where
  category : String
  regret : NCell
  rest : α
deriving DecidableEq

/-- Row selection of `top5_regret_bar`:
`df.sort_values("Regret", ascending=False).head(5)` (the plotly figure built
from these rows is presentational). -/
def top5_rows {α : Type} (df : List (ChRow α)) : List (ChRow α) :=
  (List.insertionSort (byPred (fun r : ChRow α => r.regret)) df).take 5

/-- The `df.groupby("Category")["Regret"].sum()` aggregation of
`pie_regret_by_category`; groupby sorts the distinct keys ascending and
sums with NaN skipped. -/
def pie_groups {α : Type} (df : List (ChRow α)) : List (String × ℚ) :=
  let keys := List.insertionSort (fun a b : String => a ≤ b)
    ((df.map (fun r => r.category)).dedup)
  keys.map (fun c => (c, nsum ((df.filter (fun r => r.category == c)).map (fun r => r.regret))))

/-- The total `by_cat["Regret"].sum()` tested against zero. -/
def pie_total {α : Type} (df : List (ChRow α)) : ℚ := ((pie_groups df).map Prod.snd).sum

/-- Slice data of `pie_regret_by_category`: the per-category regret sums, or
the single placeholder slice when the total is zero. -/
def pie_regret_by_category {α : Type} (df : List (ChRow α)) : List (String × ℚ) :=
  if pie_total df = 0 then [("No regret data", 1)] else pie_groups df

/-- C8: the top-5 bar selection consists of exactly the (at most) 5 rows with
the highest `Regret` values, in non-increasing `Regret` order (NaN at the
bottom), with every selected row's regret at least every unselected row's;
and the pie aggregation sums `Regret` per category, replaced by a single
placeholder slice when the total regret is zero. -/
theorem c8_charting {α : Type} (df : List (ChRow α)) :
    (top5_rows df).length = min 5 df.length ∧
    List.Sorted (byPred (fun r : ChRow α => r.regret)) (top5_rows df) ∧
    (∃ rest, (top5_rows df ++ rest).Perm df ∧
      ∀ r ∈ top5_rows df, ∀ s ∈ rest, descOpt r.regret s.regret) ∧
    (pie_total df = 0 → pie_regret_by_category df = [("No regret data", 1)]) ∧
    (pie_total df ≠ 0 → ∀ p : String × ℚ,
      p ∈ pie_regret_by_category df ↔
        (p.1 ∈ df.map (fun r => r.category) ∧
         p.2 = nsum ((df.filter (fun r => r.category == p.1)).map (fun r => r.regret)))) := by
  set rel := byPred (fun r : ChRow α => r.regret) with hrel
  have hperm := List.perm_insertionSort rel df
  have hsorted := List.sorted_insertionSort rel df
  refine ⟨?_, ?_, ?_, ?_, ?_⟩
  · rw [top5_rows, List.length_take, hperm.length_eq]
  · exact List.Pairwise.sublist (List.take_sublist 5 _) hsorted
  · refine ⟨(List.insertionSort rel df).drop 5, ?_, ?_⟩
    · rw [top5_rows, List.take_append_drop]
      exact hperm
    · intro r hr s hs
      have hs2 := hsorted
      rw [← List.take_append_drop 5 (List.insertionSort rel df)] at hs2
      exact (List.pairwise_append.mp hs2).2.2 r hr s hs
  · intro h0
    rw [pie_regret_by_category, if_pos h0]
  · intro h0
    intro p
    rw [pie_regret_by_category, if_neg h0, pie_groups]
    have hkeys : ∀ c : String,
        c ∈ List.insertionSort (fun a b : String => a ≤ b)
              ((df.map (fun r => r.category)).dedup)
          ↔ c ∈ df.map (fun r => r.category) := by
      intro c
      rw [(List.perm_insertionSort (fun a b : String => a ≤ b) _).mem_iff, List.mem_dedup]
    constructor
    · intro hp
      obtain ⟨c, hc, hcp⟩ := List.mem_map.mp hp
      have h1 : p.1 = c := (congrArg Prod.fst hcp).symm
      have h2 : p.2 = nsum ((df.filter (fun r => r.category == c)).map (fun r => r.regret)) :=
        (congrArg Prod.snd hcp).symm
      constructor
      · rw [h1]
        exact (hkeys _).mp hc
      · rw [h2, h1]
    · intro ⟨hc, hval⟩
      have hc2 := (hkeys p.1).mpr hc
      have : (p.1, nsum ((df.filter (fun r => r.category == p.1)).map (fun r => r.regret)))
          ∈ (List.insertionSort (fun a b : String => a ≤ b)
              ((df.map (fun r => r.category)).dedup)).map
            (fun c => (c, nsum ((df.filter (fun r => r.category == c)).map (fun r => r.regret)))) :=
        List.mem_map.mpr ⟨p.1, hc2, rfl⟩
      have hcp : p = (p.1, nsum ((df.filter (fun r => r.category == p.1)).map (fun r => r.regret))) := by
        rw [← hval]
      rw [hcp]
      exact this

/-- Witness for C8 at a concrete frame whose total regret is zero: the pie
aggregation produces the placeholder slice. -/
theorem c8_witness :
    pie_regret_by_category [(⟨"A", some 0, 0⟩ : ChRow ℕ)] = [("No regret data", 1)] :=
  (c8_charting [(⟨"A", some 0, 0⟩ : ChRow ℕ)]).2.2.2.1 (by with_unfolding_all rfl)

/-! ### utils/regret_predictor.py -/

/-- A raw input row for `_prepare_df`.  The embedding assumes the
`Happiness`, `Merchant` and `Category` columns are present (when one of them
is missing, `_prepare_df` raises: `df.get(..., default)` yields a scalar on
which `.fillna` does not exist), while `Amount` and `Regret` may be missing,
recorded by the `hasAmount`/`hasRegret` flags of `PDF`.  The derived
`day_of_week`/`month` feature columns are omitted: they are consumed only by
the non-embedded sklearn pipeline. -/
structure PRow where
  amount : NCell
  happiness : NCell
  regret : NCell
  merchant : Option String
  category : Option String
deriving DecidableEq

/-- A raw DataFrame for the regret predictor. -/
structure PDF where
  rows : List PRow
  hasAmount : Bool
  hasRegret : Bool
deriving DecidableEq

/-- A row of the frame produced by `_prepare_df`. -/
structure QRow where
  amount : NCell
  happiness : ℤ
  regret : NCell
  merchant : String
  category : String
deriving DecidableEq

/-- Row-wise core of `_prepare_df`: absolute `Amount` (NaN when the column is
missing), `Happiness` coerced/filled with 3/truncated to int, `Regret` kept
(coerced) when present and otherwise computed as `Amount * (1 - Happiness/5)`,
and `Merchant`/`Category` NaN filled with "Unknown". -/
def prepareRow (hasA hasR : Bool) (r : PRow) : QRow :=
  let a : NCell := if hasA then r.amount.map (fun x => |x|) else none
  let h : ℤ := truncInt (r.happiness.getD 3)
  let reg : NCell := if hasR then r.regret else a.map (fun x => x * (1 - (h : ℚ) / 5))
  { amount := a, happiness := h, regret := reg,
    merchant := r.merchant.getD "Unknown", category := r.category.getD "Unknown" }

/-- `_prepare_df` on a whole frame. -/
def prepareDF (d : PDF) : List QRow := d.rows.map (prepareRow d.hasAmount d.hasRegret)

/-- Reinjection of a prepared frame as a raw frame: after `_prepare_df` every
relevant column is present. -/
def toPDF (l : List QRow) : PDF :=
  { rows := l.map (fun r =>
      { amount := r.amount, happiness := some ((r.happiness : ℚ)), regret := r.regret,
        merchant := some r.merchant, category := some r.category }),
    hasAmount := true, hasRegret := true }

/-- The `df[df["Amount"] > 0]` filter of `heuristic_predict` (a NaN amount
compares false). -/
def posRows (l : List QRow) : List QRow :=
  l.filter (fun r => match r.amount with | some a => decide (0 < a) | none => false)

/-- The added `ratio = Regret / Amount` cell (NaN regret gives NaN ratio). -/
def rowRat (r : QRow) : NCell :=
  match r.regret, r.amount with
  | some g, some a => some (g / a)
  | _, _ => none

/-- Merchant-level candidate: mean ratio over the positive-amount rows of the
merchant when the merchant occurs there, `None` otherwise (an all-NaN mean is
also NaN, i.e. `none`). -/
def merchRat (l : List QRow) (m : String) : NCell :=
  if l.any (fun r => r.merchant == m) then
    nmean ((l.filter (fun r => r.merchant == m)).map rowRat)
  else none

/-- Category-level candidate ratio, analogous to `merchRat`. -/
def catRat (l : List QRow) (c : String) : NCell :=
  if l.any (fun r => r.category == c) then
    nmean ((l.filter (fun r => r.category == c)).map rowRat)
  else none

/-- Overall candidate: mean ratio over all positive-amount rows when any
exist (`if len(df)`), `None` otherwise. -/
def allRat (l : List QRow) : NCell :=
  if l.length ≠ 0 then nmean (l.map rowRat) else none

/-- `heuristic_predict`: prepare, keep positive-amount rows, scan the
candidates `(merchant_ratio, category_ratio, overall_ratio)` with
`pd.notna`, return `amount * max(0.0, candidate)` at the first hit, and the
happiness proxy `amount * max(0.0, 1 - happiness/5)` when all miss. -/
def heuristic_predict (d : PDF) (m c : String) (amount : NCell) (happiness : ℤ) : NCell :=
  let p := posRows (prepareDF d)
  match List.findSome? id [merchRat p m, catRat p c, allRat p] with
  | some cand => scaleAmt amount (max 0 cand)
  | none => scaleAmt amount (max 0 (1 - (happiness : ℚ) / 5))

/-- The single query row built by `predict_regret_with_fallback`; its
`day_of_week`/`month` entries are the constants 0 and are omitted.  Empty
merchant/category strings are replaced by "Unknown" (Python truthiness). -/
structure QueryRow where
  amount : NCell
  happiness : ℤ
  category : String
  merchant : String
deriving DecidableEq

/-- Build the query row of `predict_regret_with_fallback`. -/
def mkQueryRow (a : NCell) (h : ℤ) (m c : String) : QueryRow :=
  { amount := a, happiness := h,
    category := if c = "" then "Unknown" else c,
    merchant := if m = "" then "Unknown" else m }

/-- A trained model is an opaque prediction function; `.error` models
`model.predict` raising (caught by the `except` clause). -/
abbrev Model := QueryRow → Except Unit ℚ

/-- `predict_regret_with_fallback` (the active regret_predictor.py variant):
model prediction clamped at 0 with method "model" when a model is given and
predicts without raising; otherwise `heuristic_predict` on the prepared
frame with method "heuristic". -/
def predict_regret_with_fallback (model : Option Model) (d : PDF) (m c : String)
    (a : NCell) (h : ℤ) : NCell × String :=
  let q := prepareDF d
  match model with
  | some f =>
    match f (mkQueryRow a h m c) with
    | .ok p => (some (max 0 p), "model")
    | .error _ => (heuristic_predict (toPDF q) m c a h, "heuristic")
  | none => (heuristic_predict (toPDF q) m c a h, "heuristic")

/-- Truncation toward zero is the identity on integers. -/
theorem truncInt_intCast (n : ℤ) : truncInt ((n : ℚ)) = n := by
  unfold truncInt
  split
  · exact Int.floor_intCast n
  · exact Int.ceil_intCast n

/-- Preparing a reinjected prepared row changes nothing. -/
theorem prepareRow_reinject (ha hr : Bool) (r : PRow) :
    prepareRow true true
      { amount := (prepareRow ha hr r).amount,
        happiness := some (((prepareRow ha hr r).happiness : ℚ)),
        regret := (prepareRow ha hr r).regret,
        merchant := some (prepareRow ha hr r).merchant,
        category := some (prepareRow ha hr r).category }
      = prepareRow ha hr r := by
  unfold prepareRow
  simp only [if_true, Option.getD_some, QRow.mk.injEq, and_true, true_and]
  constructor
  · cases ha
    · simp
    · simp only [if_true]
      cases r.amount with
      | none => rfl
      | some x => simp [abs_abs]
  · exact truncInt_intCast _

/-- `_prepare_df` is a no-op on a reinjected prepared frame. -/
theorem prepareDF_toPDF (d : PDF) : prepareDF (toPDF (prepareDF d)) = prepareDF d := by
  unfold prepareDF toPDF
  simp only [List.map_map]
  apply List.map_congr_left
  intro r _
  exact prepareRow_reinject d.hasAmount d.hasRegret r

/-- pandas `Series.mode().iloc[0]`: among the most frequent values, the
smallest in string order ("Unknown" for an empty series, per the source
lambda's guard). -/
def modeStr (l : List String) : String :=
  match l.dedup with
  | [] => "Unknown"
  | c0 :: rest => rest.foldl (fun best c =>
      if l.count c > l.count best ∨ (l.count c = l.count best ∧ c < best) then c else best) c0

/-- `int(group["Happiness"].median() if group nonempty else 3)`. -/
def medHappiness (l : List ℤ) : ℤ :=
  if l.isEmpty then 3 else truncInt ((nmedian (l.map (fun z => some ((z : ℚ))))).getD 0)

/-- A merchant hotspot row of `compute_hotspots`. -/
structure MHot where
  merchant : String
  medianAmount : NCell
  commonCategory : String
  count : ℕ
  predicted : NCell
  method : String
deriving DecidableEq

/-- A category hotspot row of `compute_hotspots`. -/
structure CHot where
  category : String
  medianAmount : NCell
  count : ℕ
  predicted : NCell
  method : String
deriving DecidableEq

/-- The merchant-level `groupby("Merchant").agg(...)` plus the `apply` that
predicts regret per merchant: for each distinct merchant (groupby sorts keys
ascending) take the median amount (`float(x or 0.0)` is the identity on a
float median), the most common category and the truncated median happiness
of the merchant's rows, and call `predict_regret_with_fallback` on the
prepared frame. -/
def merchantStats (model : Option Model) (q : List QRow) : List MHot :=
  let merchants := List.insertionSort (fun a b : String => a ≤ b)
    ((q.map (fun r => r.merchant)).dedup)
  merchants.map (fun m =>
    let grp := q.filter (fun r => r.merchant == m)
    let med := nmedian (grp.map (fun r => r.amount))
    let cc := modeStr (grp.map (fun r => r.category))
    let hm := medHappiness (grp.map (fun r => r.happiness))
    let pr := predict_regret_with_fallback model (toPDF q) m cc med hm
    { merchant := m, medianAmount := med, commonCategory := cc, count := grp.length,
      predicted := pr.1, method := pr.2 })

/-- The category-level aggregation of `compute_hotspots` (the merchant field
of its query is the empty string). -/
def categoryStats (model : Option Model) (q : List QRow) : List CHot :=
  let cats := List.insertionSort (fun a b : String => a ≤ b)
    ((q.map (fun r => r.category)).dedup)
  cats.map (fun c =>
    let grp := q.filter (fun r => r.category == c)
    let med := nmedian (grp.map (fun r => r.amount))
    let hm := medHappiness (grp.map (fun r => r.happiness))
    let pr := predict_regret_with_fallback model (toPDF q) "" c med hm
    { category := c, medianAmount := med, count := grp.length,
      predicted := pr.1, method := pr.2 })

/-- `compute_hotspots`: `None` input raises (`None.copy()` inside
`_prepare_df`); an empty frame yields two empty frames; otherwise both
aggregations are sorted by `predicted_regret` descending and cut to
`top_n` rows. -/
def compute_hotspots (d : Option PDF) (model : Option Model) (top_n : ℕ) :
    Except Unit (List MHot × List CHot) :=
  match d with
  | none => .error ()
  | some d =>
    let q := prepareDF d
    if q.isEmpty then .ok ([], [])
    else
      .ok ((List.insertionSort (byPred MHot.predicted) (merchantStats model q)).take top_n,
           (List.insertionSort (byPred CHot.predicted) (categoryStats model q)).take top_n)

/-! ### utils/predict_regret.py (the inactive linear variant) -/

namespace PredictRegretPy

/-- `predict_regret_with_fallback` from utils/predict_regret.py.  The model
consumes only `(amount, happiness)`; a raising model is caught by the
`except` clause which returns `amount * 0.5` with method "default"; without
a model the closed-form proxy is rounded to 2 decimals with method
"heuristic".  The frame argument is unused by this variant. -/
def predict_regret_with_fallback (model : Option (ℚ × ℤ → Except Unit ℚ))
    (_d : Option PDF) (_m _c : String) (amount : ℚ) (happiness : ℤ) : ℚ × String :=
  match model with
  | some f =>
    match f (amount, happiness) with
    | .ok p => (max p 0, "model")
    | .error _ => (amount * (1/2), "default")
  | none => (round2 (amount * (1 - (happiness : ℚ) / 5)), "heuristic")

end PredictRegretPy

/-- Scanning candidates hits an initial `some` immediately. -/
theorem findSome_id_cons_some {α : Type} (v : α) (l : List (Option α)) :
    List.findSome? id (some v :: l) = some v := rfl

/-- Scanning candidates skips an initial `none`. -/
theorem findSome_id_cons_none {α : Type} (l : List (Option α)) :
    List.findSome? id (none :: l) = List.findSome? id l := rfl

/-- C9: predicted regret is never negative.  For every model, history frame,
merchant, category, happiness and every amount ≥ 0, the active
`predict_regret_with_fallback` returns a non-NaN value ≥ 0: the model branch
clamps at 0, the ratio branch multiplies by a ratio clamped at 0, and the
proxy branch multiplies by a factor clamped at 0. -/
theorem c9_predict_nonneg (model : Option Model) (d : PDF) (m c : String) (a : ℚ) (h : ℤ)
    (ha : 0 ≤ a) :
    ∃ v, (predict_regret_with_fallback model d m c (some a) h).1 = some v ∧ 0 ≤ v := by
  have hheur : ∀ e : PDF, ∃ v, heuristic_predict e m c (some a) h = some v ∧ 0 ≤ v := by
    intro e
    simp only [heuristic_predict]
    cases hf : List.findSome? id [merchRat (posRows (prepareDF e)) m,
        catRat (posRows (prepareDF e)) c, allRat (posRows (prepareDF e))] with
    | some cand =>
        simp only [hf]
        exact ⟨a * max 0 cand, rfl, mul_nonneg ha (le_max_left 0 cand)⟩
    | none =>
        simp only [hf]
        exact ⟨a * max 0 (1 - (h : ℚ) / 5), rfl, mul_nonneg ha (le_max_left _ _)⟩
  simp only [predict_regret_with_fallback]
  cases model with
  | none => exact hheur _
  | some f =>
    cases hf : f (mkQueryRow (some a) h m c) with
    | ok p =>
        simp only [hf]
        exact ⟨max 0 p, rfl, le_max_left 0 p⟩
    | error e =>
        simp only [hf]
        exact hheur _

/-- Witness for C9 at a concrete call: amount 2, happiness 7, no model, empty
history. -/
theorem c9_witness :
    (0 : ℚ) ≤ 2 ∧
    ∃ v, (predict_regret_with_fallback none ⟨[], true, true⟩ "" "" (some 2) 7).1 = some v ∧
      0 ≤ v :=
  ⟨by norm_num, c9_predict_nonneg none ⟨[], true, true⟩ "" "" 2 7 (by norm_num)⟩

/-- C1 (amended): the three-tier fallback chain of the active
`predict_regret_with_fallback`.  A given model whose predict succeeds yields
the clamped model prediction with method "model"; a raising model or no model
yields `heuristic_predict` on the prepared frame with method "heuristic"; the
heuristic scans merchant ratio, then category ratio, then overall ratio over
the positive-amount history rows, returning `amount * max(0, ratio)` at the
first available (non-NaN) candidate, and returns the clamped closed-form
proxy `amount * max(0, 1 - happiness/5)` only when all three candidates are
unavailable — in particular always when there is no positive-amount history
row. -/
theorem c1_fallback_chain (model : Option Model) (d : PDF) (m c : String) (a : NCell)
    (h : ℤ) :
    (∀ f p, model = some f → f (mkQueryRow a h m c) = .ok p →
        predict_regret_with_fallback model d m c a h = (some (max 0 p), "model")) ∧
    (∀ f e, model = some f → f (mkQueryRow a h m c) = .error e →
        predict_regret_with_fallback model d m c a h
          = (heuristic_predict (toPDF (prepareDF d)) m c a h, "heuristic")) ∧
    (model = none →
        predict_regret_with_fallback model d m c a h
          = (heuristic_predict (toPDF (prepareDF d)) m c a h, "heuristic")) ∧
    (∀ e : PDF,
      (∀ r, merchRat (posRows (prepareDF e)) m = some r →
          heuristic_predict e m c a h = scaleAmt a (max 0 r)) ∧
      (∀ r, merchRat (posRows (prepareDF e)) m = none →
          catRat (posRows (prepareDF e)) c = some r →
          heuristic_predict e m c a h = scaleAmt a (max 0 r)) ∧
      (∀ r, merchRat (posRows (prepareDF e)) m = none →
          catRat (posRows (prepareDF e)) c = none →
          allRat (posRows (prepareDF e)) = some r →
          heuristic_predict e m c a h = scaleAmt a (max 0 r)) ∧
      (merchRat (posRows (prepareDF e)) m = none →
          catRat (posRows (prepareDF e)) c = none →
          allRat (posRows (prepareDF e)) = none →
          heuristic_predict e m c a h = scaleAmt a (max 0 (1 - (h : ℚ) / 5)))) ∧
    (∀ e : PDF, posRows (prepareDF e) = [] →
        merchRat (posRows (prepareDF e)) m = none ∧
        catRat (posRows (prepareDF e)) c = none ∧
        allRat (posRows (prepareDF e)) = none) := by
  refine ⟨?_, ?_, ?_, ?_, ?_⟩
  · intro f p hm hp
    subst hm
    simp only [predict_regret_with_fallback, hp]
  · intro f e hm he
    subst hm
    simp only [predict_regret_with_fallback, he]
  · intro hm
    subst hm
    simp only [predict_regret_with_fallback]
  · intro e
    refine ⟨?_, ?_, ?_, ?_⟩
    · intro r hr
      simp only [heuristic_predict, hr, findSome_id_cons_some]
    · intro r hm0 hc0
      simp only [heuristic_predict, hm0, hc0, findSome_id_cons_none, findSome_id_cons_some]
    · intro r hm0 hc0 ha0
      simp only [heuristic_predict, hm0, hc0, ha0, findSome_id_cons_none, findSome_id_cons_some]
    · intro hm0 hc0 ha0
      simp only [heuristic_predict, hm0, hc0, ha0, findSome_id_cons_none]
      rfl
  · intro e hpos
    rw [hpos]
    exact ⟨rfl, rfl, rfl⟩

/-- Witness for C1 at a concrete call: no model on an empty history frame
takes the heuristic branch. -/
theorem c1_witness :
    predict_regret_with_fallback none ⟨[], true, true⟩ "m" "c" (some 4) 0
      = (heuristic_predict (toPDF (prepareDF ⟨[], true, true⟩)) "m" "c" (some 4) 0,
         "heuristic") :=
  (c1_fallback_chain none ⟨[], true, true⟩ "m" "c" (some 4) 0).2.2.1 rfl

/-- Counterexample to C1 as stated: with history row (Amount 5, Happiness 10,
Merchant "m") the merchant mean regret/amount ratio is −1, so the claim's
"amount times the mean ratio" would give 10 × (−1) = −10, but the code clamps
the ratio at 0 and returns 0. -/
theorem c1_counterexample :
    (predict_regret_with_fallback none
        ⟨[⟨some 5, some 10, none, some "m", some "c"⟩], true, false⟩
        "m" "" (some 10) 3).1 = some 0 ∧
    merchRat (posRows (prepareDF
        ⟨[⟨some 5, some 10, none, some "m", some "c"⟩], true, false⟩)) "m" = some (-1) ∧
    (10 : ℚ) * (-1) ≠ (0 : ℚ) := by
  refine ⟨?_, ?_, by norm_num⟩
  · with_unfolding_all rfl
  · with_unfolding_all rfl

/-- C3 (amended): on a non-empty frame `compute_hotspots` returns two
DataFrames, each sorted in non-increasing order of `predicted_regret` (NaN
last), each with at most `top_n` rows, one row per distinct prepared
merchant (resp. category); on an empty frame it returns two empty
DataFrames; on a missing (`None`) frame it raises instead of returning. -/
theorem c3_hotspots (model : Option Model) (d : PDF) (n : ℕ) :
    (d.rows ≠ [] → ∃ mh ch, compute_hotspots (some d) model n = .ok (mh, ch) ∧
        List.Sorted (byPred MHot.predicted) mh ∧ mh.length ≤ n ∧
        (mh.map MHot.merchant).Nodup ∧
        (∀ r ∈ mh, r.merchant ∈ (prepareDF d).map (fun x => x.merchant)) ∧
        List.Sorted (byPred CHot.predicted) ch ∧ ch.length ≤ n ∧
        (ch.map CHot.category).Nodup ∧
        (∀ r ∈ ch, r.category ∈ (prepareDF d).map (fun x => x.category))) ∧
    (d.rows = [] → compute_hotspots (some d) model n = .ok ([], [])) ∧
    compute_hotspots (none : Option PDF) model n = .error () := by
  refine ⟨?_, ?_, rfl⟩
  · intro hne
    have hq : (prepareDF d).isEmpty = false := by
      unfold prepareDF
      cases hr : d.rows with
      | nil => exact absurd hr hne
      | cons a t => rfl
    have hmmap : (merchantStats model (prepareDF d)).map MHot.merchant
        = List.insertionSort (fun a b : String => a ≤ b)
            (((prepareDF d).map (fun r => r.merchant)).dedup) := by
      unfold merchantStats
      rw [List.map_map]
      exact (List.map_congr_left (fun x _ => rfl)).trans (List.map_id _)
    have hcmap : (categoryStats model (prepareDF d)).map CHot.category
        = List.insertionSort (fun a b : String => a ≤ b)
            (((prepareDF d).map (fun r => r.category)).dedup) := by
      unfold categoryStats
      rw [List.map_map]
      exact (List.map_congr_left (fun x _ => rfl)).trans (List.map_id _)
    refine ⟨(List.insertionSort (byPred MHot.predicted)
              (merchantStats model (prepareDF d))).take n,
            (List.insertionSort (byPred CHot.predicted)
              (categoryStats model (prepareDF d))).take n,
            ?_, ?_, ?_, ?_, ?_, ?_, ?_, ?_, ?_⟩
    · simp only [compute_hotspots, hq, Bool.false_eq_true, if_false]
    · exact List.Pairwise.sublist (List.take_sublist n _) (List.sorted_insertionSort _ _)
    · exact List.length_take_le n _
    · rw [List.map_take]
      refine List.Nodup.sublist (List.take_sublist n _) ?_
      have hperm := (List.perm_insertionSort (byPred MHot.predicted)
        (merchantStats model (prepareDF d))).map MHot.merchant
      refine hperm.nodup_iff.mpr ?_
      rw [hmmap]
      exact (List.perm_insertionSort _ _).nodup_iff.mpr (List.nodup_dedup _)
    · intro r hr
      have hr2 : r ∈ merchantStats model (prepareDF d) :=
        ((List.perm_insertionSort _ _).mem_iff).mp ((List.take_sublist n _).subset hr)
      have : r.merchant ∈ (merchantStats model (prepareDF d)).map MHot.merchant :=
        List.mem_map_of_mem MHot.merchant hr2
      rw [hmmap] at this
      have := ((List.perm_insertionSort _ _).mem_iff).mp this
      exact (List.mem_dedup).mp this
    · exact List.Pairwise.sublist (List.take_sublist n _) (List.sorted_insertionSort _ _)
    · exact List.length_take_le n _
    · rw [List.map_take]
      refine List.Nodup.sublist (List.take_sublist n _) ?_
      have hperm := (List.perm_insertionSort (byPred CHot.predicted)
        (categoryStats model (prepareDF d))).map CHot.category
      refine hperm.nodup_iff.mpr ?_
      rw [hcmap]
      exact (List.perm_insertionSort _ _).nodup_iff.mpr (List.nodup_dedup _)
    · intro r hr
      have hr2 : r ∈ categoryStats model (prepareDF d) :=
        ((List.perm_insertionSort _ _).mem_iff).mp ((List.take_sublist n _).subset hr)
      have : r.category ∈ (categoryStats model (prepareDF d)).map CHot.category :=
        List.mem_map_of_mem CHot.category hr2
      rw [hcmap] at this
      have := ((List.perm_insertionSort _ _).mem_iff).mp this
      exact (List.mem_dedup).mp this
  · intro he
    simp only [compute_hotspots, prepareDF, he, List.map_nil, List.isEmpty_nil, if_true]

/-- Witness for C3 at a concrete one-row frame. -/
theorem c3_witness :
    ∃ mh ch, compute_hotspots
        (some ⟨[⟨some 5, some 2, none, some "m", some "c"⟩], true, true⟩) none 5
      = .ok (mh, ch) ∧ mh.length ≤ 5 ∧ ch.length ≤ 5 := by
  obtain ⟨mh, ch, hok, _, hlen, _, _, _, hclen, _, _⟩ :=
    (c3_hotspots none ⟨[⟨some 5, some 2, none, some "m", some "c"⟩], true, true⟩ 5).1
      (by simp)
  exact ⟨mh, ch, hok, hlen, hclen⟩

/-- Counterexample to C3 as stated: a missing (`None`) frame raises
(`AttributeError` inside `_prepare_df`) instead of returning two empty
DataFrames. -/
theorem c3_counterexample :
    compute_hotspots (none : Option PDF) (none : Option Model) 5 = .error () ∧
    (Except.error () : Except Unit (List MHot × List CHot))
      ≠ .ok (([], []) : List MHot × List CHot) :=
  ⟨rfl, fun h => Except.noConfusion h⟩

/-- C7 (amended): with no model and no positive-amount prepared history row,
both variants label the result "heuristic" and both compute the closed-form
proxy, but not identically: the predict_regret.py variant returns
`round2 (amount * (1 - happiness/5))` (rounded, unclamped) while the
regret_predictor.py variant returns `amount * max(0, 1 - happiness/5)`
(clamped, unrounded); they agree only when that proxy is ≥ 0 and already has
at most two decimal places. -/
theorem c7_no_model_no_history (d : PDF) (m c : String) (a : ℚ) (h : ℤ)
    (hnopos : ∀ r ∈ prepareDF d, ∀ x, r.amount = some x → ¬ 0 < x) :
    PredictRegretPy.predict_regret_with_fallback none (some d) m c a h
      = (round2 (a * (1 - (h : ℚ) / 5)), "heuristic") ∧
    predict_regret_with_fallback none d m c (some a) h
      = (some (a * max 0 (1 - (h : ℚ) / 5)), "heuristic") := by
  constructor
  · rfl
  · have hpos : posRows (prepareDF d) = [] := by
      refine List.filter_eq_nil_iff.mpr ?_
      intro r hr
      cases hx : r.amount with
      | none => simp [hx]
      | some x =>
        simp only [hx, decide_eq_true_eq]
        exact hnopos r hr x hx
    simp only [predict_regret_with_fallback, heuristic_predict, prepareDF_toPDF, hpos]
    rfl

/-- Witness for C7 at a concrete call on an empty history frame. -/
theorem c7_witness :
    (∀ r ∈ prepareDF ⟨[], true, true⟩, ∀ x, r.amount = some x → ¬ 0 < x) ∧
    (PredictRegretPy.predict_regret_with_fallback none (some ⟨[], true, true⟩) "" "" 2 1
        = (round2 (2 * (1 - (1 : ℚ) / 5)), "heuristic") ∧
      predict_regret_with_fallback none ⟨[], true, true⟩ "" "" (some 2) 1
        = (some (2 * max 0 (1 - (1 : ℚ) / 5)), "heuristic")) :=
  ⟨by simp [prepareDF],
   c7_no_model_no_history ⟨[], true, true⟩ "" "" 2 1 (by simp [prepareDF])⟩

/-- Counterexample to C7 as stated: at amount 0.111 and happiness 3 with no
model and empty history, predict_regret.py returns the rounded 0.04 while
regret_predictor.py returns the exact 0.0444, so the two variants do not
return the same predicted regret. -/
theorem c7_counterexample :
    PredictRegretPy.predict_regret_with_fallback none (some ⟨[], true, true⟩) "" ""
        (111/1000) 3 = (1/25, "heuristic") ∧
    predict_regret_with_fallback none ⟨[], true, true⟩ "" "" (some (111/1000)) 3
      = (some (111/2500), "heuristic") ∧
    (1/25 : ℚ) ≠ 111/2500 := by
  refine ⟨?_, ?_, by norm_num⟩
  · with_unfolding_all rfl
  · with_unfolding_all rfl

/-! ### utils/peer_benchmarks.py -/

/-- A row as consumed by the peer comparison: the month key of the parsed
`Date` (`none` models NaT, dropped by the month groupby), the `Category`,
and the `Amount`/`Regret` cells. -/
structure PeerRow where
  month : Option ℤ
  category : String
  amount : NCell
  regret : NCell
deriving DecidableEq

/-- A frame for the peer comparison; `hasDate` records whether the `Date`
column exists (the code falls back to whole-period sums without it). -/
structure PeerDF where
  rows : List PeerRow
  hasDate : Bool
deriving DecidableEq

/-- A row of the `_user_category_stats` result. -/
structure CatStat where
  category : String
  avgMonthlySpend : ℚ
  avgMonthlyRegret : ℚ
  userRegretRat : NCell
deriving DecidableEq

/-- The `groupby(["month","Category"])` aggregation: one entry per distinct
(month, category) pair among rows with a parsed date, with NaN-skipping sums
of `Amount` and `Regret`. -/
def monthlyGroups (rows : List PeerRow) : List ((ℤ × String) × ℚ × ℚ) :=
  let valid := rows.filter (fun r => r.month.isSome)
  let keys := (valid.map (fun r => (r.month.getD 0, r.category))).dedup
  keys.map (fun k =>
    let grp := valid.filter (fun r => r.month.getD 0 == k.1 && r.category == k.2)
    (k, nsum (grp.map (fun r => r.amount)), nsum (grp.map (fun r => r.regret))))

/-- `_user_category_stats`: with a `Date` column, average the monthly sums
per category and set the regret ratio to NaN when the average spend is 0
(`replace(0, pd.NA)`); without one, use whole-period sums. -/
def user_category_stats (d : PeerDF) : List CatStat :=
  if d.hasDate then
    let monthly := monthlyGroups d.rows
    let cats := (monthly.map (fun t => t.1.2)).dedup
    cats.map (fun c =>
      let grp := monthly.filter (fun t => t.1.2 == c)
      let s := qmean (grp.map (fun t => t.2.1))
      let g := qmean (grp.map (fun t => t.2.2))
      { category := c, avgMonthlySpend := s, avgMonthlyRegret := g,
        userRegretRat := if s = 0 then none else some (g / s) })
  else
    let cats := (d.rows.map (fun r => r.category)).dedup
    cats.map (fun c =>
      let grp := d.rows.filter (fun r => r.category == c)
      let s := nsum (grp.map (fun r => r.amount))
      let g := nsum (grp.map (fun r => r.regret))
      { category := c, avgMonthlySpend := s, avgMonthlyRegret := g,
        userRegretRat := if s = 0 then none else some (g / s) })

/-- The static `PEER_PROFILES` table: per profile, per category, average
monthly spend and regret ratio. -/
def PEER_PROFILES : List (String × List (String × ℚ × ℚ)) :=
  [ ("student",
      [("Groceries", 150, 12/100), ("Dining", 120, 18/100), ("Transport", 60, 10/100),
       ("Shopping", 80, 22/100), ("Entertainment", 50, 15/100), ("Other", 40, 10/100)]),
    ("young_professional",
      [("Groceries", 300, 10/100), ("Dining", 250, 16/100), ("Transport", 120, 8/100),
       ("Shopping", 200, 18/100), ("Entertainment", 100, 12/100), ("Other", 80, 9/100)]),
    ("family",
      [("Groceries", 700, 7/100), ("Dining", 400, 14/100), ("Transport", 250, 9/100),
       ("Shopping", 350, 15/100), ("Entertainment", 200, 11/100), ("Other", 150, 9/100)]) ]

/-- A row of the comparison DataFrame built by `compare_to_peer_profile`. -/
structure CompRow where
  category : String
  userSpend : ℚ
  peerSpend : ℚ
  pctDiffSpend : NCell
  userRegretRat : NCell
  peerRegretRat : NCell
  pctDiffRegretRat : NCell
deriving DecidableEq

/-- One comparison row: user stats looked up by category (0 spend and no
ratio when absent), peer values from the profile (0 spend and `None` ratio
when absent); `pct_diff_spend` only for truthy non-zero peer spend,
`pct_diff_regret_ratio` only for truthy (non-`None`, non-zero) peer ratio
together with an existing user ratio. -/
def compRowFor (stats : List CatStat) (profile : List (String × ℚ × ℚ))
    (cat : String) : CompRow :=
  let ur := stats.find? (fun r => r.category == cat)
  let userSpend : ℚ := match ur with | some r => r.avgMonthlySpend | none => 0
  let userRat : NCell := match ur with | some r => r.userRegretRat | none => none
  let peerSpend : ℚ := match profile.lookup cat with | some p => p.1 | none => 0
  let peerRat : NCell := (profile.lookup cat).map (fun p => p.2)
  { category := cat, userSpend := userSpend, peerSpend := peerSpend,
    pctDiffSpend :=
      if peerSpend ≠ 0 then some ((userSpend - peerSpend) / peerSpend * 100) else none,
    userRegretRat := userRat, peerRegretRat := peerRat,
    pctDiffRegretRat :=
      match peerRat, userRat with
      | some pr, some u => if pr ≠ 0 then some ((u - pr) / pr * 100) else none
      | _, _ => none }

/-- `compare_to_peer_profile`: raise (`ValueError`) on an unknown profile
name; otherwise build one row per category in the union of the user's and
the profile's categories and sort by user spend descending.  The summary
sentences it also returns are presentational and not modelled. -/
def compare_to_peer_profile (d : PeerDF) (profileName : String) :
    Except Unit (List CompRow) :=
  match PEER_PROFILES.lookup profileName with
  | none => .error ()
  | some profile =>
    let stats := user_category_stats d
    let cats := ((stats.map (fun r => r.category)) ++ profile.map (fun p => p.1)).dedup
    .ok (List.insertionSort (byQDesc CompRow.userSpend) (cats.map (compRowFor stats profile)))

/-- C5: for every frame and known profile, `compare_to_peer_profile` returns
one row per category in the union of the user's and the profile's
categories; each row has `pct_diff_spend = (user − peer)/peer × 100` exactly
when the peer spend is non-zero (missing otherwise) and
`pct_diff_regret_ratio` analogously from the ratios exactly when the peer
ratio exists and is non-zero and the user ratio exists; an unknown profile
name raises. -/
theorem c5_peer_comparison (d : PeerDF) (name : String) :
    (PEER_PROFILES.lookup name = none → compare_to_peer_profile d name = .error ()) ∧
    (∀ profile, PEER_PROFILES.lookup name = some profile →
      ∃ rows, compare_to_peer_profile d name = .ok rows ∧
        (rows.map CompRow.category).Perm
          (((user_category_stats d).map (fun r => r.category)
            ++ profile.map (fun p => p.1)).dedup) ∧
        ∀ r ∈ rows,
          (r.pctDiffSpend
            = if r.peerSpend ≠ 0 then some ((r.userSpend - r.peerSpend) / r.peerSpend * 100)
              else none) ∧
          (r.pctDiffRegretRat
            = match r.peerRegretRat, r.userRegretRat with
              | some pr, some u => if pr ≠ 0 then some ((u - pr) / pr * 100) else none
              | _, _ => none)) := by
  constructor
  · intro h0
    simp only [compare_to_peer_profile, h0]
  · intro profile hp
    simp only [compare_to_peer_profile, hp]
    refine ⟨_, rfl, ?_, ?_⟩
    · have h1 := (List.perm_insertionSort (byQDesc CompRow.userSpend)
        ((((user_category_stats d).map (fun r => r.category)
            ++ profile.map (fun p => p.1)).dedup).map
          (compRowFor (user_category_stats d) profile))).map CompRow.category
      have h2 : ((((user_category_stats d).map (fun r => r.category)
            ++ profile.map (fun p => p.1)).dedup).map
          (compRowFor (user_category_stats d) profile)).map CompRow.category
          = (((user_category_stats d).map (fun r => r.category)
            ++ profile.map (fun p => p.1)).dedup) := by
        rw [List.map_map]
        exact (List.map_congr_left (fun x _ => rfl)).trans (List.map_id _)
      rw [h2] at h1
      exact h1
    · intro r hr
      have hr2 : r ∈ (((user_category_stats d).map (fun r => r.category)
          ++ profile.map (fun p => p.1)).dedup).map
            (compRowFor (user_category_stats d) profile) :=
        ((List.perm_insertionSort _ _).mem_iff).mp hr
      obtain ⟨c, _, hval⟩ := List.mem_map.mp hr2
      subst hval
      exact ⟨rfl, rfl⟩

/-- Witness for C5: comparing an empty frame against the "student" profile
succeeds. -/
theorem c5_witness :
    (compare_to_peer_profile ⟨[], false⟩ "student").isOk = true := by
  obtain ⟨rows, hok, _, _⟩ := (c5_peer_comparison ⟨[], false⟩ "student").2 _ rfl
  rw [hok]
  rfl

/-! ### app.py -/

/-- A CSV cell as produced by `pd.read_csv`: a string, a number, a parsed
date, or NaN.  Date-valued cells are modelled pre-tokenized as `.date`
(wall-clock date parsing is outside the embedding); a numeric cell is
assumed to print without scientific notation, so that
`astype(str)` + regex-strip + `to_numeric` round-trips it. -/
inductive Cell where
  | str (s : String)
  | num (q : ℚ)
  | date (d : ℤ)
  | nan
deriving DecidableEq

/-- An uploaded table: the row count and the named columns. -/
structure Table where
  nrows : ℕ
  cols : List (String × List Cell)
deriving DecidableEq

/-- The canonical rename `{"date": "Date", "merchant": "Merchant",
"amount": "Amount"}`. -/
def renameCanonical (n : String) : String :=
  if n = "date" then "Date"
  else if n = "merchant" then "Merchant"
  else if n = "amount" then "Amount"
  else n

/-- The regex strip `str.replace(r"[^0-9.-]", "")`: keep digits, dots and
hyphens. -/
def keepNumChars (s : String) : List Char :=
  s.data.filter (fun ch => ch.isDigit || ch = '.' || ch = '-')

/-- Decimal digit accumulation. -/
def digitsToNat (l : List Char) : ℕ :=
  l.foldl (fun n ch => 10 * n + (ch.toNat - 48)) 0

/-- `pd.to_numeric(..., errors="coerce")` on an already-stripped character
string: an optional leading minus, digits with at most one dot and at least
one digit; anything else coerces to NaN. -/
def parseDec (cs : List Char) : NCell :=
  let neg : Bool := match cs with | '-' :: _ => true | _ => false
  let body : List Char := match cs with | '-' :: t => t | _ => cs
  if body.any (fun ch => ¬(ch.isDigit || ch = '.')) then none
  else if body.count '.' > 1 then none
  else
    let ip := body.takeWhile (fun ch => ch ≠ '.')
    let fp := (body.dropWhile (fun ch => ch ≠ '.')).drop 1
    if ip = [] ∧ fp = [] then none
    else some ((if neg then (-1 : ℚ) else 1) *
      ((digitsToNat ip : ℚ) + (digitsToNat fp : ℚ) / (10 ^ fp.length)))

/-- The `Amount` coercion
`pd.to_numeric(col.astype(str).str.replace(r"[^0-9.-]", "", regex=True), errors="coerce")`. -/
def toNumericCell (c : Cell) : Cell :=
  match c with
  | .num q => .num q
  | .str s =>
    match parseDec (keepNumChars s) with
    | some q => .num q
    | none => .nan
  | .nan => .nan
  | .date _ => .nan

/-- The `Date` coercion `pd.to_datetime(..., errors="coerce")`: date cells
stay, everything else coerces to NaT. -/
def toDatetimeCell (c : Cell) : Cell :=
  match c with
  | .date d => .date d
  | _ => .nan

/-- Apply a cell transformation to every column with the given name. -/
def mapCol (n : String) (f : Cell → Cell) (t : Table) : Table :=
  { t with cols := t.cols.map (fun p => if p.1 = n then (p.1, p.2.map f) else p) }

/-- `load_transactions`: normalize headers with `strip().lower()`, stop with
an error unless {date, merchant, amount} are all present, rename them to
canonical case, coerce the `Date` and `Amount` columns, and add placeholder
`Category` (empty string) and `Happiness` (3) columns when absent. -/
def load_transactions (t : Table) : Except Unit Table :=
  let t1 : Table := { t with cols := t.cols.map (fun p => (pyLower (pyStrip p.1), p.2)) }
  let names := t1.cols.map Prod.fst
  if "date" ∈ names ∧ "merchant" ∈ names ∧ "amount" ∈ names then
    let t2 : Table := { t1 with cols := t1.cols.map (fun p => (renameCanonical p.1, p.2)) }
    let t3 := mapCol "Date" toDatetimeCell t2
    let t4 := mapCol "Amount" toNumericCell t3
    let t5 := if "Category" ∈ t4.cols.map Prod.fst then t4
      else { t4 with cols := t4.cols ++ [("Category", List.replicate t4.nrows (Cell.str ""))] }
    let t6 := if "Happiness" ∈ t5.cols.map Prod.fst then t5
      else { t5 with cols := t5.cols ++ [("Happiness", List.replicate t5.nrows (Cell.num 3))] }
    .ok t6
  else .error ()

/-- The header names after normalization. -/
def normalizedNames (t : Table) : List String :=
  t.cols.map (fun p => pyLower (pyStrip p.1))

/-- The header names after normalization and canonical rename. -/
def renamedNames (t : Table) : List String :=
  t.cols.map (fun p => renameCanonical (pyLower (pyStrip p.1)))

/-- `mapCol` does not change column names. -/
theorem mapCol_names (n : String) (f : Cell → Cell) (t : Table) :
    (mapCol n f t).cols.map Prod.fst = t.cols.map Prod.fst := by
  unfold mapCol
  rw [List.map_map]
  apply List.map_congr_left
  intro p _
  by_cases h : p.1 = n
  · simp [h]
  · simp [h]

/-- C6: if the normalized header set misses one of date/merchant/amount,
`load_transactions` reports an error and halts; when all are present it
succeeds, appending a `Category` column of empty strings and a `Happiness`
column of 3s when those (canonical) names are absent. -/
theorem c6_load_validation (t : Table) :
    (¬ ("date" ∈ normalizedNames t ∧ "merchant" ∈ normalizedNames t ∧
        "amount" ∈ normalizedNames t) →
      load_transactions t = .error ()) ∧
    (("date" ∈ normalizedNames t ∧ "merchant" ∈ normalizedNames t ∧
        "amount" ∈ normalizedNames t) →
      ∃ t2, load_transactions t = .ok t2 ∧
        ("Category" ∉ renamedNames t →
          ("Category", List.replicate t.nrows (Cell.str "")) ∈ t2.cols) ∧
        ("Happiness" ∉ renamedNames t →
          ("Happiness", List.replicate t.nrows (Cell.num 3)) ∈ t2.cols)) := by
  have hnames : (t.cols.map (fun p => (pyLower (pyStrip p.1), p.2))).map Prod.fst
      = normalizedNames t := by
    rw [List.map_map]
    rfl
  have hren : ((t.cols.map (fun p => (pyLower (pyStrip p.1), p.2))).map
        (fun p => (renameCanonical p.1, p.2))).map Prod.fst
      = renamedNames t := by
    rw [List.map_map, List.map_map]
    rfl
  have hn4 : (mapCol "Amount" toNumericCell (mapCol "Date" toDatetimeCell
        { nrows := t.nrows,
          cols := (t.cols.map (fun p => (pyLower (pyStrip p.1), p.2))).map
            (fun p => (renameCanonical p.1, p.2)) })).cols.map Prod.fst
      = renamedNames t := by
    rw [mapCol_names, mapCol_names]
    exact hren
  constructor
  · intro hmiss
    simp only [load_transactions, hnames]
    rw [if_neg hmiss]
  · intro hcond
    simp only [load_transactions, hnames]
    rw [if_pos hcond]
    refine ⟨_, rfl, ?_, ?_⟩
    · intro hcat
      rw [hn4, if_neg hcat]
      split
      · exact List.mem_append_right _ (List.mem_singleton.mpr rfl)
      · exact List.mem_append_left _ (List.mem_append_right _ (List.mem_singleton.mpr rfl))
    · intro hhap
      rw [hn4]
      by_cases hcat2 : "Category" ∈ renamedNames t
      · rw [if_pos hcat2, hn4, if_neg hhap]
        exact List.mem_append_right _ (List.mem_singleton.mpr rfl)
      · rw [if_neg hcat2, List.map_append, hn4]
        rw [if_neg ?hnotin]
        case hnotin =>
          intro hmem
          rcases List.mem_append.mp hmem with hmem | hmem
          · exact hhap hmem
          · simp at hmem
        exact List.mem_append_right _ (List.mem_singleton.mpr rfl)

/-- Witness for C6 at a concrete upload with scrambled header case and a
currency-formatted amount. -/
theorem c6_witness :
    ∃ t2, load_transactions
        ⟨1, [(" Date ", [Cell.date 0]), ("MERCHANT", [Cell.str "Uber"]),
             ("amount", [Cell.str "7.50"])]⟩ = .ok t2 ∧
      ("Category", [Cell.str ""]) ∈ t2.cols ∧ ("Happiness", [Cell.num 3]) ∈ t2.cols := by
  obtain ⟨t2, hok, hcat, hhap⟩ :=
    (c6_load_validation
      ⟨1, [(" Date ", [Cell.date 0]), ("MERCHANT", [Cell.str "Uber"]),
           ("amount", [Cell.str "7.50"])]⟩).2 (by decide)
  exact ⟨t2, hok, hcat (by decide), hhap (by decide)⟩

/-- The `Happiness` validation pipeline of app.py:
`pd.to_numeric(..., errors="coerce").fillna(3).astype(int).clip(1, 5)`
(the numeric coercion of the edited cells is the `NCell` representation). -/
def happiness_validated (h : List NCell) : List ℤ :=
  ((h.map (fun c0 => c0.getD 3)).map truncInt).map (fun z => min 5 (max 1 z))

/-- The `Regret` derivation of app.py:
`(df["Amount"].abs()) * (1 - df["Happiness"] / 5.0)` followed by `.round(2)`. -/
def regret_col (amount : List NCell) (happiness : List ℤ) : List NCell :=
  (List.zipWith (fun a hz => a.map (fun x => |x| * (1 - (hz : ℚ) / 5))) amount happiness).map
    (Option.map round2)

/-- C2: after validation every row's regret equals
`|Amount| * (1 - Happiness/5)` rounded (half-even) to 2 decimal places,
where `Happiness` is the cell coerced to an integer with missing values
replaced by 3 and clipped into 1–5 (a NaN amount keeps the regret NaN). -/
theorem c2_regret_formula (amount : List NCell) (h : List NCell) :
    regret_col amount (happiness_validated h)
      = List.zipWith
          (fun a hc => a.map (fun x =>
            round2 (|x| * (1 - ((min 5 (max 1 (truncInt (hc.getD 3))) : ℤ) : ℚ) / 5))))
          amount h := by
  unfold regret_col happiness_validated
  rw [List.map_map, List.map_map, List.zipWith_map_right, List.map_zipWith]
  congr 1
  funext a hc
  rw [Option.map_map]
  rfl

end LossLens
